import Mathlib

/-!
Shallow embedding of `src/mongo/db/repair_database.cpp` (repair orchestration
protocol): the file enumerator `_applyOpToDataFiles`, the concrete file
operations (remove / rename-for-backup / size / replace-with-recovered), the
reserved-path arbiter `uniqueReservedPath`, the scoped cleanup guard
`RepairFileDeleter`, and the top-level coordinator `repairDatabase`.

External collaborators (storage engine, durability manager, file allocator,
filesystem) are modelled as oracle fields of an `Env` record; the coordinator
is a pure function from inputs and oracles to a result plus an event trace
recording the order of its externally visible actions.
-/

namespace RepairDb

/-- Status values returned by `repairDatabase` (mirrors `mongo::Status`
error codes used in the source). -/
inductive Status
  | ok
  | outOfDiskSpace (msg : String)
  | namespaceNotFound (msg : String)
  | error (msg : String)
deriving DecidableEq, Repr

/-- Abstract name of a data file of one database: the namespace catalog file
`<db>.ns`, or a numbered extent file `<db>.<i>`. -/
inductive DFile
  | ns
  | num (i : Nat)
deriving DecidableEq, Repr

/-- `FileOp` from the source: a per-file operation; `apply` returns `true`
iff the file existed and the operation was handled.  State `σ` threads the
per-operation effect (accumulated size, remaining files, moved names). -/
structure FileOpM (σ : Type) where
  apply : σ → DFile → σ × Bool
  opName : String

/-- Outcome of the numbered-extent-file loop of `_applyOpToDataFiles`:
normal stop with the final op state and the list of `(index, handled)`
probes, a `verify( i <= DiskLoc::MaxFiles )` hard failure, or fuel
exhaustion (never reached with fuel above `maxFiles + 2`). -/
inductive LoopOut (σ : Type)
  | done (s : σ) (probes : List (Nat × Bool))
  | verifyFail (s : σ)
  | fuelOut
deriving DecidableEq, Repr

/-- The `while (1)` loop of `_applyOpToDataFiles` (source lines 209–226):
`verify( i <= MaxFiles )` first; apply the op to file `i`; on a handled file
the counter `extra` is left unchanged (a warning is logged when it differs
from 10); on a miss `extra` is decremented and the loop breaks when it
reaches zero; otherwise `i` is incremented and the loop repeats. -/
def dataFileLoop {σ : Type} (maxFiles : Nat) (applyOp : σ → Nat → σ × Bool) :
    Nat → σ → Nat → Nat → LoopOut σ
  | 0, _, _, _ => .fuelOut
  | fuel + 1, s, i, extra =>
    if maxFiles < i then .verifyFail s
    else
      let sb := applyOp s i
      if sb.2 then
        match dataFileLoop maxFiles applyOp fuel sb.1 (i + 1) extra with
        | .done s2 l => .done s2 ((i, true) :: l)
        | .verifyFail s2 => .verifyFail s2
        | .fuelOut => .fuelOut
      else if extra - 1 = 0 then .done sb.1 [(i, false)]
      else
        match dataFileLoop maxFiles applyOp fuel sb.1 (i + 1) (extra - 1) with
        | .done s2 l => .done s2 ((i, false) :: l)
        | .verifyFail s2 => .verifyFail s2
        | .fuelOut => .fuelOut

/-- Modelled from the spec: a counter-resetting variant of the loop, written
from the words of the spec (when `op.apply` reports that the file existed
and was handled, reset a defensive counter), to be compared with `dataFileLoop` (the loop the
source actually contains). -/
def dataFileLoopSpecReset {σ : Type} (maxFiles : Nat) (applyOp : σ → Nat → σ × Bool) :
    Nat → σ → Nat → Nat → LoopOut σ
  | 0, _, _, _ => .fuelOut
  | fuel + 1, s, i, extra =>
    if maxFiles < i then .verifyFail s
    else
      let sb := applyOp s i
      if sb.2 then
        match dataFileLoopSpecReset maxFiles applyOp fuel sb.1 (i + 1) 10 with
        | .done s2 l => .done s2 ((i, true) :: l)
        | .verifyFail s2 => .verifyFail s2
        | .fuelOut => .fuelOut
      else if extra - 1 = 0 then .done sb.1 [(i, false)]
      else
        match dataFileLoopSpecReset maxFiles applyOp fuel sb.1 (i + 1) (extra - 1) with
        | .done s2 l => .done s2 ((i, false) :: l)
        | .verifyFail s2 => .verifyFail s2
        | .fuelOut => .fuelOut

/-- Record of one `_applyOpToDataFiles` invocation: which database, the
human-readable name of the op, the `afterAllocator` flag and the root path. -/
structure EnumCall where
  database : String
  opName : String
  afterAllocator : Bool
  root : String
deriving DecidableEq, Repr

/-- Result of `_applyOpToDataFiles`: the call record, whether the `.ns` file
was handled, and the numbered-file loop outcome. -/
structure EnumResult (σ : Type) where
  call : EnumCall
  nsHandled : Bool
  loopOut : LoopOut σ

/-- `_applyOpToDataFiles( database, fo, afterAllocator, path )` (source
lines 194–227): apply the op to `<db>.ns`, then to `<db>.0`, `<db>.1`, …
with the defensive counter starting at 10.  Fuel `maxFiles + 2` is enough
because `i` increases on every non-breaking iteration and the loop
hard-fails once `i` exceeds `maxFiles`. -/
def applyOpToDataFiles {σ : Type} (maxFiles : Nat) (database : String)
    (op : FileOpM σ) (s : σ) (afterAllocator : Bool) (root : String) :
    EnumResult σ :=
  let nsr := op.apply s .ns
  { call := ⟨database, op.opName, afterAllocator, root⟩
    nsHandled := nsr.2
    loopOut := dataFileLoop maxFiles (fun s i => op.apply s (.num i)) (maxFiles + 2) nsr.1 0 10 }

/-- Leaf (base) name of a data file of database `db`. -/
def leafName (db : String) : DFile → String
  | .ns => db ++ ".ns"
  | .num i => db ++ "." ++ toString i

/-- The anonymous remove op of `_deleteDataFiles`: `boost::filesystem::remove`
returns `true` iff the file existed (and deletes it). -/
def removeOp : FileOpM (DFile → Option Nat) :=
  { apply := fun g f => (fun f' => if f' = f then none else g f', (g f).isSome)
    opName := "remove" }

/-- The `SizeAccumulator` op of `dbSize`: if the file exists, add its size
to the accumulator and report handled; otherwise report not handled. -/
def sizeOp (fs : DFile → Option Nat) : FileOpM Nat :=
  { apply := fun s f =>
      match fs f with
      | some sz => (s + sz, true)
      | none => (s, false)
    opName := "checking size" }

/-- The `Renamer` op of `_renameForBackup`: skip missing files; move an
existing file to `newPath / (leaf + ".bak")` (second state component records
the target leaf names produced, in order). -/
def renameForBackupOp (database : String) :
    FileOpM ((DFile → Option Nat) × List String) :=
  { apply := fun gm f =>
      if (gm.1 f).isSome then
        ((fun f' => if f' = f then none else gm.1 f',
          gm.2 ++ [leafName database f ++ ".bak"]), true)
      else (gm, false)
    opName := "renaming" }

/-- The `Replacer` op of `_replaceWithRecovered`: skip missing files; move an
existing file to `newPath / leaf`. -/
def replacerOp (database : String) :
    FileOpM ((DFile → Option Nat) × List String) :=
  { apply := fun gm f =>
      if (gm.1 f).isSome then
        ((fun f' => if f' = f then none else gm.1 f',
          gm.2 ++ [leafName database f]), true)
      else (gm, false)
    opName := "renaming" }

/-- `dbSize( database )` (source lines 131–153): run the size accumulator
through the enumerator with the **default** arguments
`afterAllocator = false`, `path = storageGlobalParams.dbpath`. -/
def dbSize (maxFiles : Nat) (fs : DFile → Option Nat) (database dbpath : String) :
    EnumResult Nat :=
  applyOpToDataFiles maxFiles database (sizeOp fs) 0 false dbpath

/-- Result of `_deleteDataFiles`: either the directory-per-database
short-circuit (wait for the allocator, then `remove_all(<dbpath>/<db>)`,
enumerator bypassed) or an enumerator run with the remove op. -/
structure DeleteResult where
  shortCircuit : Bool
  enumed : Option (EnumResult (DFile → Option Nat))

/-- `_deleteDataFiles( database )` (source lines 77–95). -/
def deleteDataFiles (directoryperdb : Bool) (maxFiles : Nat)
    (fs : DFile → Option Nat) (database dbpath : String) : DeleteResult :=
  if directoryperdb then
    { shortCircuit := true, enumed := none }
  else
    { shortCircuit := false
      enumed := some (applyOpToDataFiles maxFiles database removeOp fs true dbpath) }

/-- `_renameForBackup( database, reservedPath )` (source lines 109–129):
enumerator with the backup renamer, `afterAllocator = true`, default root. -/
def renameForBackup (maxFiles : Nat) (fs : DFile → Option Nat)
    (database dbpath : String) : EnumResult ((DFile → Option Nat) × List String) :=
  applyOpToDataFiles maxFiles database (renameForBackupOp database) (fs, []) true dbpath

/-- `_replaceWithRecovered( database, reservedPathString )` (source lines
156–176): enumerator with the replacer, `afterAllocator = true`, root =
the reserved path. -/
def replaceWithRecovered (maxFiles : Nat) (fs : DFile → Option Nat)
    (database _dbpath reservedPathString : String) :
    EnumResult ((DFile → Option Nat) × List String) :=
  applyOpToDataFiles maxFiles database (replacerOp database) (fs, []) true reservedPathString

/-- Directory name generated by `uniqueReservedPath`:
`<prefix>_repairDatabase_<n>` (source line 186). -/
def reservedDirName (pre : String) (n : Nat) : String :=
  pre ++ "_repairDatabase_" ++ toString n

/-- Probe loop of `uniqueReservedPath` (source lines 179–192): starting from
`i`, return the first index whose candidate path does not exist.  `ex` is
the filesystem existence oracle for candidate index `n`; fuel bounds the
search (the C++ loop is unbounded). -/
def uniqueReservedPathNum (ex : Nat → Bool) : Nat → Nat → Option Nat
  | 0, _ => none
  | fuel + 1, i => if ex i then uniqueReservedPathNum ex fuel (i + 1) else some i

/-- Modelled from the spec: `nsToDatabase` (declared in the out-of-scope
namespace-string header) — "Internally normalized by stripping any
`collection-qualifier` suffix (the substring from the first `.` onward)". -/
def nsToDatabase (ns : String) : String :=
  ⟨ns.data.takeWhile (fun c => c ≠ '.')⟩

/-- Modelled from the spec: `NamespaceString::coll()` — the collection part
of a fully-qualified `<db>.<collection>` identifier (everything after the
first `.`, empty when there is no dot). -/
def nsColl (ns : String) : String :=
  ⟨(ns.data.dropWhile (fun c => c ≠ '.')).drop 1⟩

/-- Boolean list-prefix test (used to model `NamespaceString::isSystem`). -/
def listIsPref : List Char → List Char → Bool
  | [], _ => true
  | _ :: _, [] => false
  | a :: p, b :: s => a == b && listIsPref p s

/-- Modelled from the spec: `NamespaceString::isSystem()` — the collection
part starts with `system.`. -/
def nsIsSystem (ns : String) : Bool :=
  listIsPref "system.".data (nsColl ns).data

/-- Lexicographic order on char lists (models the `std::string` ordering of
the `std::map` keying `namespacesToCopy`). -/
def listLt : List Char → List Char → Bool
  | [], [] => false
  | [], _ :: _ => true
  | _ :: _, [] => false
  | a :: s, b :: t => decide (a.val < b.val) || (a == b && listLt s t)

/-- Ordered key insert into the `namespacesToCopy` map (`std::map` keyed by
namespace string; inserting an existing key keeps the key set). Only keys
matter to the claims, so values are not modelled. -/
def mapInsert (ns : String) : List String → List String
  | [] => [ns]
  | a :: rest =>
    if listLt ns.data a.data then ns :: a :: rest
    else if ns = a then a :: rest
    else a :: mapInsert ns rest

/-- One document of `<db>.system.namespaces` as seen by the catalog scan:
its `name` string, and — when an `options` sub-document is present — the
`Status` that `CollectionOptions::parse` returns on it (the parser itself is
an out-of-scope engine collaborator; the scan only branches on its status). -/
structure CatalogEntry where
  name : String
  optionsParse : Option Status

/-- One iteration of the catalog scan (source lines 334–358): skip
`system.indexes` and `system.namespaces` (under the `isSystem` test, as in
the source), skip non-normal identifiers (`isNormal` is the out-of-scope
engine predicate, passed as an oracle), parse the options sub-document if
present and fail with its status when the parse is not OK, else record the
name in the map. -/
def scanStep (isNormal : String → Bool) (acc : List String) (e : CatalogEntry) :
    Except Status (List String) :=
  let ns := e.name
  if nsIsSystem ns && (nsColl ns = "system.indexes" || nsColl ns = "system.namespaces") then
    .ok acc
  else if ! isNormal ns then
    .ok acc
  else
    match e.optionsParse with
    | some st => if st = .ok then .ok (mapInsert ns acc) else .error st
    | none => .ok (mapInsert ns acc)

/-- The catalog-scan loop over the documents of `<db>.system.namespaces`. -/
def scanCatalog (isNormal : String → Bool) :
    List CatalogEntry → List String → Except Status (List String)
  | [], acc => .ok acc
  | e :: rest, acc =>
    match scanStep isNormal acc e with
    | .error st => .error st
    | .ok acc2 => scanCatalog isNormal rest acc2

/-- Events externally visible during a repair run, in program order. -/
inductive Event
  | syncJournal
  | flushAll
  | enumFiles (call : EnumCall)
  | allocReserved (pre : String) (n : Nat) (path : String)
  | closeTempDb
  | closeOriginalDb
  | createTempCollection (ns : String)
  | renameForBackupEv
  | deleteOriginalsEv
  | createDbDir
  | guardCommit
  | installRecoveredEv
  | removeReservedEv
  | guardCleanup
deriving DecidableEq, Repr

/-- How a `repairDatabase` call ends: a returned `Status`, or a C++
exception propagating out of the function (interrupt, `verify` failure,
enumeration assertion). -/
inductive RunResult
  | ret (s : Status)
  | exn (msg : String)
deriving DecidableEq, Repr

/-- Observable outcome of a `repairDatabase` call: result, event trace,
the value of the process-wide `inDBRepair` flag after the call, and whether
a `RepairFileDeleter` guard was installed during the call. -/
structure Run where
  result : RunResult
  trace : List Event
  inDBRepairFinal : Bool
  guardInstalled : Bool
deriving DecidableEq, Repr

/-- Result and local trace of a phase of the coordinator (the caller
prepends the events that happened before the phase). -/
structure PRun where
  result : RunResult
  trace : List Event
deriving DecidableEq, Repr

/-- Trace suffix appended on an error exit while the cleanup guard is armed
and uncommitted: the destructor of the guard fires. -/
def guardTail (armed : Bool) (t : List Event) : List Event :=
  if armed then t ++ [.guardCleanup] else t

/-- `RepairFileDeleter` state: bound names and the `_success` flag (set by
`success()`). -/
structure RepairFileDeleter where
  dbName : String
  pathString : String
  succeeded : Bool
deriving DecidableEq, Repr

/-- Construction (source lines 231–238): `_success` starts `false`. -/
def mkRepairFileDeleter (dbName pathString : String) : RepairFileDeleter :=
  ⟨dbName, pathString, false⟩

/-- `RepairFileDeleter::success()` (source lines 263–265). -/
def deleterSuccess (d : RepairFileDeleter) : RepairFileDeleter :=
  { d with succeeded := true }

/-- Cleanup actions of the guard destructor, in order. -/
inductive CleanupEvent
  | syncJournalC
  | flushAllC
  | closeDb (name path : String)
  | removeAll (path : String)
deriving DecidableEq, Repr

/-- Outcome of the guard destructor. -/
inductive DtorOutcome
  | noop
  | cleaned (evs : List CleanupEvent)
  | fassertAbort (code : Nat)
deriving DecidableEq, Repr

/-- `~RepairFileDeleter()` (source lines 240–261): do nothing after
`success()`; otherwise sync-and-truncate the journal, flush all files,
close the database rooted at the reserved path and recursively remove it;
a `DBException` anywhere in that cleanup (`throws` oracle) ends in
`fassertFailed( 17402 )`. -/
def repairFileDeleterDtor (d : RepairFileDeleter) (throwsDuringCleanup : Bool) :
    DtorOutcome :=
  if d.succeeded then .noop
  else if throwsDuringCleanup then .fassertAbort 17402
  else .cleaned [.syncJournalC, .flushAllC,
                 .closeDb d.dbName d.pathString, .removeAll d.pathString]

/-- `storageGlobalParams` fields the file uses. -/
structure Params where
  dbpath : String
  repairpath : String
  directoryperdb : Bool

/-- Oracles for the out-of-scope collaborators of `repairDatabase`:
filesystem state, allocator/durability are implicit, engine callbacks
return what the oracle says. -/
structure Env where
  params : Params
  /-- `DiskLoc::MaxFiles` (storage-engine constant). -/
  maxFiles : Nat
  /-- Sizes of the files of the original database under the data path. -/
  origFiles : DFile → Option Nat
  /-- Sizes of the rebuilt files under the reserved path at install time. -/
  reservedFiles : DFile → Option Nat
  /-- `File::freeSpace(repairpath)`; `-1` when unknown. -/
  freeSpace : Int
  /-- `BackgroundOperation::assertNoBgOpInProgForDb` throws. -/
  bgOpInProgress : Bool
  /-- `killCurrentOp.checkForInterrupt()` throws at the phase-4 check. -/
  interrupted : Bool
  /-- Existence of candidate reserved directory number `n` at probe time. -/
  reservedExists : Nat → Bool
  /-- Fuel bounding the reserved-path probe loop. -/
  probeFuel : Nat
  /-- `dbHolder().get( dbName, dbpath ) != NULL`. -/
  dbExists : Bool
  /-- Documents of `<db>.system.namespaces` (`none`: collection absent). -/
  catalog : Option (List CatalogEntry)
  /-- `NamespaceString::isNormal()` — out-of-scope engine predicate. -/
  isNormal : String → Bool
  /-- Outcome of the per-collection rebuild (index init / inserts / index
  commit) for one namespace: the first non-OK status, or OK. -/
  rebuild : String → Status

/-- The per-collection rebuild loop (source lines 362–422): for each mapped
namespace, create the target collection on the temp database, then rebuild;
the first non-OK status stops the loop and is returned. -/
def rebuildLoop (rebuild : String → Status) :
    List String → List Event × Option Status
  | [] => ([], none)
  | ns :: rest =>
    if rebuild ns = .ok then
      let r := rebuildLoop rebuild rest
      (.createTempCollection ns :: r.1, r.2)
    else ([.createTempCollection ns], some (rebuild ns))

/-- The message of the `OutOfDiskSpace` status (source lines 294–297). -/
def outOfSpaceMsg (dbName : String) (totalSize freeSize : Int) : String :=
  "Cannot repair database " ++ dbName ++ " having size: " ++ toString totalSize
    ++ " (bytes) because free disk space is: " ++ toString freeSize ++ " (bytes)"

/-- Tail of the coordinator after the originals are disposed (source lines
444–452): release the guard via `success()` when one was installed, move the
rebuilt files into place with `_replaceWithRecovered`, then — unless in
backup mode — recursively remove the reserved directory and return OK.  An
exception in the install enumeration propagates with the guard already
committed, so no guard cleanup runs. -/
def afterDispose (env : Env) (dbName : String) (backupOriginalFiles armed : Bool)
    (t : List Event) (reservedPathString : String) : PRun :=
  let t5 := t ++ (if armed then [.guardCommit] else [])
  let rp := replaceWithRecovered env.maxFiles env.reservedFiles dbName
      env.params.dbpath reservedPathString
  let t6 := t5 ++ [.installRecoveredEv, .enumFiles rp.call]
  match rp.loopOut with
  | .done _ _ =>
    ⟨.ret .ok, t6 ++ (if ! backupOriginalFiles then [.removeReservedEv] else [])⟩
  | _ => ⟨.exn "file enumeration failed", t6⟩

/-- The catalog-scan block (source lines 325–360): when
`<db>.system.namespaces` is absent the map stays empty, otherwise scan its
documents. -/
def catalogScanRes (env : Env) : Except Status (List String) :=
  match env.catalog with
  | none => Except.ok []
  | some es => scanCatalog env.isNormal es []

/-- Body of the coordinator after the reserved directory is created and the
guard conditionally installed (source lines 313–442): open the original
database (else `NamespaceNotFound`), open the temp database, scan the
catalog, rebuild every mapped collection, fence durability, close both
handles, dispose of the originals (backup-rename or delete-and-recreate-dir)
and continue in `afterDispose`.  Every error exit appends the guard
cleanup when it is armed. -/
def repairAfterAlloc (env : Env) (dbName : String)
    (backupOriginalFiles armed : Bool) (reservedPathString : String) : PRun :=
  if ! env.dbExists then
    ⟨.ret (.namespaceNotFound "database does not exist to repair"), guardTail armed []⟩
  else
    match catalogScanRes env with
    | .error st => ⟨.ret st, guardTail armed []⟩
    | .ok nsList =>
      let rb := rebuildLoop env.rebuild nsList
      match rb.2 with
      | some st => ⟨.ret st, guardTail armed rb.1⟩
      | none =>
        let t3 := rb.1 ++ [.syncJournal, .flushAll, .closeTempDb, .closeOriginalDb]
        if backupOriginalFiles then
          let rnb := renameForBackup env.maxFiles env.origFiles dbName env.params.dbpath
          let t4 := t3 ++ [.renameForBackupEv, .enumFiles rnb.call]
          match rnb.loopOut with
          | .done _ _ => afterDispose env dbName backupOriginalFiles armed t4 reservedPathString
          | _ => ⟨.exn "file enumeration failed", guardTail armed t4⟩
        else
          let del := deleteDataFiles env.params.directoryperdb env.maxFiles
              env.origFiles dbName env.params.dbpath
          match del.enumed with
          | none =>
            afterDispose env dbName backupOriginalFiles armed
              (t3 ++ [.deleteOriginalsEv, .createDbDir]) reservedPathString
          | some r =>
            let t4 := t3 ++ [.deleteOriginalsEv, .enumFiles r.call]
            match r.loopOut with
            | .done _ _ =>
              afterDispose env dbName backupOriginalFiles armed (t4 ++ [.createDbDir])
                reservedPathString
            | _ => ⟨.exn "file enumeration failed", guardTail armed t4⟩

/-- `repairDatabase( dbName, preserveClonedFilesOnFailure, backupOriginalFiles )`
(source lines 274–453).  `inDBRepair0` is the process-wide flag on entry: the
constructor of the `doingRepair` marker `verify( ! inDBRepair )` throws when it is
already set (and the flag keeps its value, the marker never having been
constructed); on every other exit path the destructor of the marker has reset it
to `false`. -/
def repairDatabase (env : Env) (dbName0 : String)
    (preserveClonedFilesOnFailure backupOriginalFiles : Bool)
    (inDBRepair0 : Bool) : Run :=
  if inDBRepair0 then
    ⟨.exn "verify failed: ! inDBRepair", [], true, false⟩
  else
    let dbName := nsToDatabase dbName0
    if env.bgOpInProgress then
      ⟨.exn "background operation in progress for database", [], false, false⟩
    else
      let szr := dbSize env.maxFiles env.origFiles dbName env.params.dbpath
      let t1 : List Event := [.syncJournal, .enumFiles szr.call]
      match szr.loopOut with
      | .fuelOut => ⟨.exn "enumeration out of fuel", t1, false, false⟩
      | .verifyFail _ => ⟨.exn "verify failed: i <= DiskLoc::MaxFiles", t1, false, false⟩
      | .done total _ =>
        let totalSize : Int := (total : Int)
        if env.freeSpace > -1 ∧ env.freeSpace < totalSize then
          ⟨.ret (.outOfDiskSpace (outOfSpaceMsg dbName totalSize env.freeSpace)),
            t1, false, false⟩
        else if env.interrupted then
          ⟨.exn "interrupted", t1, false, false⟩
        else
          match uniqueReservedPathNum env.reservedExists env.probeFuel 0 with
          | none => ⟨.exn "reserved path probe exhausted", t1, false, false⟩
          | some n =>
            let pre := if preserveClonedFilesOnFailure || backupOriginalFiles
              then "backup" else "_tmp"
            let reservedPathString :=
              env.params.repairpath ++ "/" ++ reservedDirName pre n
            let t2 := t1 ++ [.allocReserved pre n reservedPathString]
            let armed := ! preserveClonedFilesOnFailure
            let r := repairAfterAlloc env dbName backupOriginalFiles armed reservedPathString
            ⟨r.result, t2 ++ r.trace, false, armed⟩

/-- The file-swap events of the dispose / commit / install sequence. -/
def isSwapEvent : Event → Bool
  | .renameForBackupEv => true
  | .deleteOriginalsEv => true
  | .guardCommit => true
  | .installRecoveredEv => true
  | .removeReservedEv => true
  | _ => false

/-- Recognizer for the `create_directory(<dbpath>/<db>)` event. -/
def isCreateDbDir : Event → Bool
  | .createDbDir => true
  | _ => false

/-- Number of probes of the enumeration loop that found no file. -/
def missCount (probes : List (Nat × Bool)) : Nat :=
  (probes.filter (fun pr => !pr.2)).length

/-- A namespace the catalog scan must skip: collection part equal to
`system.namespaces` or `system.indexes`, or not normal. -/
def nsSkipped (isNormal : String → Bool) (ns : String) : Prop :=
  nsColl ns = "system.namespaces" ∨ nsColl ns = "system.indexes" ∨ isNormal ns = false

/-- `sub` occurs as a contiguous substring of `s`. -/
def strContains (s sub : String) : Prop :=
  ∃ a b : List Char, s.data = a ++ (sub.data ++ b)

/-- A small concrete database: `<db>.ns` plus two extent files. -/
def sampleFiles : DFile → Option Nat
  | .ns => some 100
  | .num 0 => some 200
  | .num 1 => some 300
  | _ => none

/-- Catalog of the sample database: one plain collection, the two excluded
system collections, and one collection whose options parse fine. -/
def sampleCatalog : List CatalogEntry :=
  [⟨"foo.bar", none⟩, ⟨"foo.system.indexes", none⟩,
   ⟨"foo.system.namespaces", none⟩, ⟨"foo.baz", some .ok⟩]

/-- A healthy environment: plenty of free space, no interrupt, reserved
slot 0 taken (so the arbiter must pick 1), every rebuild succeeds. -/
def sampleEnv : Env :=
  { params := ⟨"/data/db", "/data/repair", false⟩
    maxFiles := 30
    origFiles := sampleFiles
    reservedFiles := sampleFiles
    freeSpace := 100000
    bgOpInProgress := false
    interrupted := false
    reservedExists := fun n => n == 0
    probeFuel := 5
    dbExists := true
    catalog := some sampleCatalog
    isNormal := fun _ => true
    rebuild := fun _ => .ok }

/-- Files for the free-space-starvation scenario: total size 1024 bytes. -/
def lowSpaceFiles : DFile → Option Nat
  | .ns => some 24
  | .num 0 => some 1000
  | _ => none

/-- Environment whose repair root reports 100 free bytes against a 1024
byte database. -/
def lowSpaceEnv : Env :=
  { sampleEnv with origFiles := lowSpaceFiles, freeSpace := 100 }

/-- Environment whose catalog has one entry with a failing options parse. -/
def parseFailEnv : Env :=
  { sampleEnv with catalog := some [⟨"foo.bad", some (.error "invalid options")⟩] }

/-- The probe loop returns the least index whose candidate path is absent. -/
theorem urpn_least (ex : Nat → Bool) :
    ∀ (fuel i n : Nat), uniqueReservedPathNum ex fuel i = some n →
      ex n = false ∧ i ≤ n ∧ ∀ m, i ≤ m → m < n → ex m = true := by
  intro fuel
  induction fuel with
  | zero => intro i n h; simp [uniqueReservedPathNum] at h
  | succ fuel ih =>
    intro i n h
    simp only [uniqueReservedPathNum] at h
    by_cases hex : ex i
    · rw [if_pos hex] at h
      obtain ⟨h1, h2, h3⟩ := ih (i + 1) n h
      refine ⟨h1, by omega, fun m him hmn => ?_⟩
      rcases Nat.lt_or_ge m (i + 1) with hm | hm
      · have hmi : m = i := by omega
        rw [hmi]; exact hex
      · exact h3 m hm hmn
    · rw [if_neg hex] at h
      have hin : i = n := Option.some.inj h
      subst hin
      exact ⟨Bool.eq_false_iff.mpr hex, Nat.le_refl i, fun m h1 h2 => by omega⟩

/-- A name with collection part `system.namespaces` or `system.indexes`
satisfies the combined system-skip condition of the scan. -/
theorem sysCondTrue (ns : String)
    (h : nsColl ns = "system.namespaces" ∨ nsColl ns = "system.indexes") :
    (nsIsSystem ns && (decide (nsColl ns = "system.indexes")
      || decide (nsColl ns = "system.namespaces"))) = true := by
  rcases h with h | h <;> · simp only [nsIsSystem, h]; decide

/-- Membership after an ordered map insert. -/
theorem mapInsert_mem (ns x : String) :
    ∀ (l : List String), ns ∈ mapInsert x l → ns = x ∨ ns ∈ l := by
  intro l
  induction l with
  | nil => intro h; simp [mapInsert] at h; exact Or.inl h
  | cons a rest ih =>
    intro h
    simp only [mapInsert] at h
    split at h
    · rcases List.mem_cons.mp h with h1 | h1
      · exact Or.inl h1
      · exact Or.inr h1
    · split at h
      · exact Or.inr h
      · rcases List.mem_cons.mp h with h1 | h1
        · exact Or.inr (List.mem_cons.mpr (Or.inl h1))
        · rcases ih h1 with h2 | h2
          · exact Or.inl h2
          · exact Or.inr (List.mem_cons.mpr (Or.inr h2))

/-- The scan leaves the map unchanged on a skipped entry. -/
theorem scanStep_skip (isNormal : String → Bool) (acc : List String)
    (e : CatalogEntry) (hskip : nsSkipped isNormal e.name) :
    scanStep isNormal acc e = .ok acc := by
  simp only [scanStep]
  rcases hskip with hs | hs | hs
  · rw [if_pos (sysCondTrue e.name (Or.inl hs))]
  · rw [if_pos (sysCondTrue e.name (Or.inr hs))]
  · by_cases hc : (nsIsSystem e.name && (decide (nsColl e.name = "system.indexes")
      || decide (nsColl e.name = "system.namespaces"))) = true
    · rw [if_pos hc]
    · rw [if_neg hc, if_pos (by simp [hs])]

/-- A name in the map after one scan step is the name of that entry or was
already in the map. -/
theorem scanStep_ok_mem (isNormal : String → Bool) (acc acc2 : List String)
    (e : CatalogEntry) (ns : String)
    (h : scanStep isNormal acc e = .ok acc2) (hmem : ns ∈ acc2) :
    ns = e.name ∨ ns ∈ acc := by
  simp only [scanStep] at h
  repeat' split at h
  all_goals (first
    | exact (Except.noConfusion h)
    | (rw [← Except.ok.inj h] at hmem
       first
         | exact Or.inr hmem
         | exact mapInsert_mem ns e.name acc hmem))

/-- One scan step never adds a skipped name to the map. -/
theorem scanStep_not_mem (isNormal : String → Bool) (acc acc2 : List String)
    (e : CatalogEntry) (ns : String) (hskip : nsSkipped isNormal ns)
    (h : scanStep isNormal acc e = .ok acc2) (hns : ns ∉ acc) : ns ∉ acc2 := by
  intro hmem
  rcases scanStep_ok_mem isNormal acc acc2 e ns h hmem with h1 | h1
  · subst h1
    rw [scanStep_skip isNormal acc e hskip] at h
    exact hns ((Except.ok.inj h).symm ▸ hmem)
  · exact hns h1

/-- The whole catalog scan never adds a skipped name to the map. -/
theorem scanCatalog_not_mem (isNormal : String → Bool) :
    ∀ (es : List CatalogEntry) (acc m : List String) (ns : String),
      nsSkipped isNormal ns → scanCatalog isNormal es acc = .ok m →
      ns ∉ acc → ns ∉ m := by
  intro es
  induction es with
  | nil =>
    intro acc m ns hskip h hns
    simp only [scanCatalog] at h
    exact (Except.ok.inj h) ▸ hns
  | cons e rest ih =>
    intro acc m ns hskip h hns
    simp only [scanCatalog] at h
    split at h
    · exact absurd h (by simp)
    · rename_i acc2 hstep
      exact ih acc2 m ns hskip h (scanStep_not_mem isNormal acc acc2 e ns hskip hstep hns)

/-- One scan step only fails with a status that is not OK (the source
guards the early return with `!status.isOK()`). -/
theorem scanStep_error_ne_ok (isNormal : String → Bool) (acc : List String)
    (e : CatalogEntry) (st : Status) :
    scanStep isNormal acc e = .error st → st ≠ .ok := by
  intro h
  simp only [scanStep] at h
  repeat' split at h
  all_goals simp_all

/-- The whole catalog scan only fails with a status that is not OK. -/
theorem scanCatalog_error_ne_ok (isNormal : String → Bool) :
    ∀ (es : List CatalogEntry) (acc : List String) (st : Status),
      scanCatalog isNormal es acc = .error st → st ≠ .ok := by
  intro es
  induction es with
  | nil => intro acc st h; simp [scanCatalog] at h
  | cons e rest ih =>
    intro acc st h
    simp only [scanCatalog] at h
    split at h
    · rename_i st0 hstep
      simp only [Except.error.injEq] at h
      rw [← h]
      exact scanStep_error_ne_ok isNormal acc e st0 hstep
    · rename_i acc2 hstep
      exact ih acc2 st h

/-- The scan block only fails with a status that is not OK. -/
theorem catalogScanRes_error_ne_ok (env : Env) (st : Status) :
    catalogScanRes env = .error st → st ≠ .ok := by
  intro h
  unfold catalogScanRes at h
  split at h
  · simp at h
  · exact scanCatalog_error_ne_ok env.isNormal _ [] st h

/-- A skipped name is never in the map produced by the scan block. -/
theorem catalogScanRes_ok_not_mem (env : Env) (ns : String) (nsList : List String)
    (hskip : nsSkipped env.isNormal ns) (h : catalogScanRes env = .ok nsList) :
    ns ∉ nsList := by
  unfold catalogScanRes at h
  split at h
  · simp_all
  · exact scanCatalog_not_mem env.isNormal _ [] nsList ns hskip h (by simp)

/-- When the loop stops normally from a positive counter, the number of
misses among its probes equals that counter: the counter is decremented on
every miss (never reset on a hit) and the loop stops exactly when it
reaches zero, so misses are counted cumulatively. -/
theorem dataFileLoop_done_missCount {σ : Type} (mf : Nat) (op : σ → Nat → σ × Bool) :
    ∀ (fuel : Nat) (s : σ) (i extra : Nat) (s2 : σ) (probes : List (Nat × Bool)),
      1 ≤ extra → dataFileLoop mf op fuel s i extra = .done s2 probes →
      missCount probes = extra := by
  intro fuel
  induction fuel with
  | zero => intro s i extra s2 probes hx h; simp [dataFileLoop] at h
  | succ fuel ih =>
    intro s i extra s2 probes hx h
    simp only [dataFileLoop] at h
    split at h
    · exact absurd h (by simp)
    · split at h
      · split at h
        · rename_i s3 l heq
          obtain ⟨rfl, rfl⟩ : s3 = s2 ∧ (i, true) :: l = probes := by
            constructor <;> [exact (LoopOut.done.inj h).1; exact (LoopOut.done.inj h).2]
          have hmc := ih _ _ _ _ _ hx heq
          simpa [missCount] using hmc
        · exact absurd h (by simp)
        · exact absurd h (by simp)
      · split at h
        · rename_i hz
          obtain ⟨rfl, rfl⟩ : _ ∧ [(i, false)] = probes := by
            constructor <;> [exact (LoopOut.done.inj h).1; exact (LoopOut.done.inj h).2]
          simp [missCount]; omega
        · rename_i hz
          split at h
          · rename_i s3 l heq
            obtain ⟨rfl, rfl⟩ : s3 = s2 ∧ (i, false) :: l = probes := by
              constructor <;> [exact (LoopOut.done.inj h).1; exact (LoopOut.done.inj h).2]
            have hmc := ih _ _ _ _ _ (by omega) heq
            simp [missCount] at hmc ⊢
            omega
          · exact absurd h (by simp)
          · exact absurd h (by simp)

/-- The loop checks `i <= MaxFiles` before anything else and hard-fails
when the bound is exceeded. -/
theorem dataFileLoop_verifyFail_of_exceeds {σ : Type} (mf : Nat)
    (op : σ → Nat → σ × Bool) (fuel : Nat) (s : σ) (i extra : Nat) (h : mf < i) :
    dataFileLoop mf op (fuel + 1) s i extra = .verifyFail s := by
  simp [dataFileLoop, h]

/-- Every event of the rebuild loop is a target-collection creation for a
mapped namespace. -/
theorem rebuildLoop_mem_createTemp (rb : String → Status) :
    ∀ (l : List String) (e : Event), e ∈ (rebuildLoop rb l).1 →
      ∃ ns, ns ∈ l ∧ e = .createTempCollection ns := by
  intro l
  induction l with
  | nil => intro e h; simp [rebuildLoop] at h
  | cons ns rest ih =>
    intro e h
    simp only [rebuildLoop] at h
    split at h
    · rcases List.mem_cons.mp h with h1 | h1
      · exact ⟨ns, List.mem_cons_self ns rest, h1⟩
      · obtain ⟨ns2, hm, he⟩ := ih e h1
        exact ⟨ns2, List.mem_cons_of_mem ns hm, he⟩
    · rcases List.mem_cons.mp h with h1 | h1
      · exact ⟨ns, List.mem_cons_self ns rest, h1⟩
      · simp at h1

/-- The rebuild loop stops only on a status that is not OK. -/
theorem rebuildLoop_some_ne_ok (rb : String → Status) :
    ∀ (l : List String) (st : Status), (rebuildLoop rb l).2 = some st → st ≠ .ok := by
  intro l
  induction l with
  | nil => intro st h; simp [rebuildLoop] at h
  | cons ns rest ih =>
    intro st h
    simp only [rebuildLoop] at h
    split at h
    · exact ih st h
    · rename_i hne
      simp only [Option.some.injEq] at h
      rw [← h]; exact hne

/-- Any predicate false on collection creations filters the rebuild events
to nothing. -/
theorem rebuildLoop_filter_none (P : Event → Bool)
    (hP1 : ∀ ns, P (.createTempCollection ns) = false) (rb : String → Status) :
    ∀ l : List String, ((rebuildLoop rb l).1).filter P = [] := by
  intro l
  induction l with
  | nil => simp [rebuildLoop]
  | cons ns rest ih =>
    simp only [rebuildLoop]
    split
    · simpa [List.filter_cons, hP1] using ih
    · simp [List.filter_cons, hP1]

/-- Membership through the guard-cleanup tail. -/
theorem guardTail_mem (armed : Bool) (t : List Event) (e : Event)
    (h : e ∈ guardTail armed t) : e ∈ t ∨ e = .guardCleanup := by
  unfold guardTail at h
  split at h
  · rcases List.mem_append.mp h with h1 | h1
    · exact Or.inl h1
    · simp at h1; exact Or.inr h1
  · exact Or.inl h

/-- Events produced by the commit-and-install tail beyond its input trace. -/
theorem afterDispose_mem (env : Env) (dbName : String) (backup armed : Bool)
    (t : List Event) (rps : String) (e : Event)
    (h : e ∈ (afterDispose env dbName backup armed t rps).trace) :
    e ∈ t ∨ e = .guardCommit ∨ e = .installRecoveredEv ∨
      (∃ c, e = .enumFiles c) ∨ e = .removeReservedEv := by
  simp only [afterDispose] at h
  split at h
  · simp only [List.append_assoc, List.mem_append] at h
    rcases h with h | h
    · exact Or.inl h
    rcases h with h | h
    · cases armed <;> simp_all
    rcases h with h | h
    · simp at h
      rcases h with h | h
      · exact Or.inr (Or.inr (Or.inl h))
      · exact Or.inr (Or.inr (Or.inr (Or.inl ⟨_, h⟩)))
    · cases backup <;> simp_all
  · simp only [List.append_assoc, List.mem_append] at h
    rcases h with h | h
    · exact Or.inl h
    rcases h with h | h
    · cases armed <;> simp_all
    · simp at h
      rcases h with h | h
      · exact Or.inr (Or.inr (Or.inl h))
      · exact Or.inr (Or.inr (Or.inr (Or.inl ⟨_, h⟩)))

/-- Shape of every event in the post-allocation body: never a reserved-path
allocation, and a target-collection creation only for a namespace the scan
put in the map. -/
theorem repairAfterAlloc_mem_shape (env : Env) (dbName : String)
    (backup armed : Bool) (rps : String) (e : Event)
    (h : e ∈ (repairAfterAlloc env dbName backup armed rps).trace) :
    (∀ p k s, e ≠ .allocReserved p k s) ∧
    (∀ ns, e = .createTempCollection ns →
      ∃ nsList, catalogScanRes env = .ok nsList ∧ ns ∈ nsList) := by
  simp only [repairAfterAlloc] at h
  split at h
  · rcases guardTail_mem armed [] e h with h1 | h1
    · simp at h1
    · subst h1; exact ⟨by simp, by simp⟩
  · split at h
    next st heq =>
      rcases guardTail_mem armed [] e h with h1 | h1
      · simp at h1
      · subst h1; exact ⟨by simp, by simp⟩
    next nsList heq =>
      have hrb : ∀ em, em ∈ (rebuildLoop env.rebuild nsList).1 →
          (∀ p k s, em ≠ Event.allocReserved p k s) ∧
          (∀ ns, em = Event.createTempCollection ns →
            ∃ l2, catalogScanRes env = .ok l2 ∧ ns ∈ l2) := by
        intro em hm
        obtain ⟨ns, hns, rfl⟩ := rebuildLoop_mem_createTemp env.rebuild nsList em hm
        refine ⟨by simp, fun ns2 he => ?_⟩
        obtain rfl : ns = ns2 := Event.createTempCollection.inj he
        exact ⟨nsList, heq, hns⟩
      have ht3 : ∀ em, em ∈ (rebuildLoop env.rebuild nsList).1 ++
          [Event.syncJournal, Event.flushAll, Event.closeTempDb, Event.closeOriginalDb] →
          (∀ p k s, em ≠ Event.allocReserved p k s) ∧
          (∀ ns, em = Event.createTempCollection ns →
            ∃ l2, catalogScanRes env = .ok l2 ∧ ns ∈ l2) := by
        intro em hm
        rcases List.mem_append.mp hm with h1 | h1
        · exact hrb em h1
        · simp at h1
          rcases h1 with h1 | h1 | h1 | h1 <;> (subst h1; exact ⟨by simp, by simp⟩)
      split at h
      next st hsome =>
        rcases guardTail_mem armed _ e h with h1 | h1
        · exact hrb e h1
        · subst h1; exact ⟨by simp, by simp⟩
      next hnone =>
        split at h
        next hbak =>
          split at h
          next hloop =>
            rcases afterDispose_mem env dbName backup armed _ rps e h with
              h1 | h1 | h1 | ⟨c, h1⟩ | h1
            · rcases List.mem_append.mp h1 with h2 | h2
              · exact ht3 e h2
              · simp at h2
                rcases h2 with h2 | h2 <;> (subst h2; exact ⟨by simp, by simp⟩)
            all_goals (subst h1; exact ⟨by simp, by simp⟩)
          next hloop =>
            rcases guardTail_mem armed _ e h with h1 | h1
            · rcases List.mem_append.mp h1 with h2 | h2
              · exact ht3 e h2
              · simp at h2
                rcases h2 with h2 | h2 <;> (subst h2; exact ⟨by simp, by simp⟩)
            · subst h1; exact ⟨by simp, by simp⟩
        next hbak =>
          split at h
          next henum =>
            rcases afterDispose_mem env dbName backup armed _ rps e h with
              h1 | h1 | h1 | ⟨c, h1⟩ | h1
            · rcases List.mem_append.mp h1 with h2 | h2
              · exact ht3 e h2
              · simp at h2
                rcases h2 with h2 | h2 <;> (subst h2; exact ⟨by simp, by simp⟩)
            all_goals (subst h1; exact ⟨by simp, by simp⟩)
          next r henum =>
            split at h
            next hloop =>
              rcases afterDispose_mem env dbName backup armed _ rps e h with
                h1 | h1 | h1 | ⟨c, h1⟩ | h1
              · rcases List.mem_append.mp h1 with h2 | h2
                · rcases List.mem_append.mp h2 with h3 | h3
                  · exact ht3 e h3
                  · simp at h3
                    rcases h3 with h3 | h3 <;> (subst h3; exact ⟨by simp, by simp⟩)
                · simp at h2; subst h2; exact ⟨by simp, by simp⟩
              all_goals (subst h1; exact ⟨by simp, by simp⟩)
            next hloop =>
              rcases guardTail_mem armed _ e h with h1 | h1
              · rcases List.mem_append.mp h1 with h2 | h2
                · exact ht3 e h2
                · simp at h2
                  rcases h2 with h2 | h2 <;> (subst h2; exact ⟨by simp, by simp⟩)
              · subst h1; exact ⟨by simp, by simp⟩

/-- Filter of the trace of the commit-and-install tail on success, for any
predicate that ignores enumerator calls. -/
theorem afterDispose_ok_filter (P : Event → Bool)
    (hP6 : ∀ c, P (.enumFiles c) = false)
    (env : Env) (dbName : String) (backup armed : Bool)
    (t : List Event) (rps : String) :
    (afterDispose env dbName backup armed t rps).result = .ret .ok →
    (afterDispose env dbName backup armed t rps).trace.filter P =
      t.filter P ++ (if armed then List.filter P [.guardCommit] else []) ++
      List.filter P [.installRecoveredEv] ++
      (if !backup then List.filter P [.removeReservedEv] else []) := by
  simp only [afterDispose]
  split
  · intro _
    cases armed <;> cases backup <;>
      try simp [List.filter_append, List.filter_cons, hP6]
    all_goals (repeat' split)
    all_goals (try simp)
  · intro h
    exact absurd h (by simp)

/-- Filter of the coordinator trace after allocation, on a successful run,
for any predicate that ignores collection creations, durability fences,
handle closes and enumerator calls: what remains is exactly the dispose /
commit / install / cleanup skeleton in program order. -/
theorem repairAfterAlloc_ok_filter (P : Event → Bool)
    (hP1 : ∀ ns, P (.createTempCollection ns) = false)
    (hP2 : P .syncJournal = false) (hP3 : P .flushAll = false)
    (hP4 : P .closeTempDb = false) (hP5 : P .closeOriginalDb = false)
    (hP6 : ∀ c, P (.enumFiles c) = false)
    (env : Env) (dbName : String) (backup armed : Bool) (rps : String) :
    (repairAfterAlloc env dbName backup armed rps).result = .ret .ok →
    (repairAfterAlloc env dbName backup armed rps).trace.filter P =
      (if backup then List.filter P [.renameForBackupEv]
       else List.filter P [.deleteOriginalsEv, .createDbDir]) ++
      (if armed then List.filter P [.guardCommit] else []) ++
      List.filter P [.installRecoveredEv] ++
      (if !backup then List.filter P [.removeReservedEv] else []) := by
  simp only [repairAfterAlloc]
  split
  next hdb => intro h; exact absurd h (by simp)
  next hdb =>
    split
    next st heq =>
      intro h
      exfalso
      simp only [RunResult.ret.injEq] at h
      exact catalogScanRes_error_ne_ok env st heq h
    next nsList heq =>
      split
      next st hrb =>
        intro h
        exfalso
        simp only [RunResult.ret.injEq] at h
        exact rebuildLoop_some_ne_ok env.rebuild nsList st hrb h
      next hrb =>
        split
        next hbak =>
          split
          next s2 l2 hloop =>
            intro h
            rw [afterDispose_ok_filter P hP6 env dbName backup armed _ rps h]
            cases armed <;>
              simp [List.filter_append, List.filter_cons, hbak,
                    rebuildLoop_filter_none P hP1, hP2, hP3, hP4, hP5, hP6]
          next hloop => intro h; exact absurd h (by simp)
        next hbak =>
          split
          next henum =>
            intro h
            rw [afterDispose_ok_filter P hP6 env dbName backup armed _ rps h]
            cases armed <;>
              simp [List.filter_append, List.filter_cons, eq_false_of_ne_true hbak,
                    rebuildLoop_filter_none P hP1, hP2, hP3, hP4, hP5, hP6]
          next r henum =>
            split
            next s2 l2 hloop =>
              intro h
              rw [afterDispose_ok_filter P hP6 env dbName backup armed _ rps h]
              cases armed <;>
                simp [List.filter_append, List.filter_cons, eq_false_of_ne_true hbak,
                      rebuildLoop_filter_none P hP1, hP2, hP3, hP4, hP5, hP6]
            next hloop => intro h; exact absurd h (by simp)

/-- On a failing options parse the post-allocation body returns exactly the
parser status, with only the guard cleanup in its local trace. -/
theorem repairAfterAlloc_scan_error (env : Env) (dbName : String)
    (backup armed : Bool) (rps : String) (st : Status)
    (hdbe : env.dbExists = true) (hscan : catalogScanRes env = .error st) :
    repairAfterAlloc env dbName backup armed rps = ⟨.ret st, guardTail armed []⟩ := by
  simp [repairAfterAlloc, hdbe, hscan]

/-- The commit-and-install tail never raises the constructor-invariant
message of the `doingRepair` marker. -/
theorem afterDispose_not_verify (env : Env) (dbName : String) (backup armed : Bool)
    (t : List Event) (rps : String) :
    (afterDispose env dbName backup armed t rps).result ≠
      .exn "verify failed: ! inDBRepair" := by
  simp only [afterDispose]
  split
  · simp
  · intro hc; exact absurd (RunResult.exn.inj hc) (by decide)

/-- Neither does the post-allocation body. -/
theorem repairAfterAlloc_not_verify_exn (env : Env) (dbName : String)
    (backup armed : Bool) (rps : String) :
    (repairAfterAlloc env dbName backup armed rps).result ≠
      .exn "verify failed: ! inDBRepair" := by
  simp only [repairAfterAlloc]
  repeat' split
  all_goals first
    | (solve | simp)
    | exact afterDispose_not_verify env dbName backup armed _ rps

/-- Both byte counts of `outOfSpaceMsg` occur in the message text. -/
theorem outOfSpaceMsg_contains (db : String) (t f : Int) :
    strContains (outOfSpaceMsg db t f) (toString t) ∧
    strContains (outOfSpaceMsg db t f) (toString f) := by
  constructor
  · refine ⟨("Cannot repair database " ++ db ++ " having size: ").data,
      (" (bytes) because free disk space is: " ++ toString f ++ " (bytes)").data, ?_⟩
    simp [outOfSpaceMsg, String.data_append, List.append_assoc]
  · refine ⟨("Cannot repair database " ++ db ++ " having size: " ++ toString t
      ++ " (bytes) because free disk space is: ").data, (" (bytes)").data, ?_⟩
    simp [outOfSpaceMsg, String.data_append, List.append_assoc]

/-- Claim C1: on every successful `repairDatabase` run with the guard
installed (no `preserveClonedFilesOnFailure`), the disposal of the original
files (rename-for-backup in backup mode, delete otherwise) happens strictly
before the cleanup guard is disarmed via `success()`, which happens strictly
before the rebuilt files are installed from the reserved directory; and when
`backupOriginalFiles` is false the reserved directory is removed after the
install and the run returns OK.  Stated through the swap-event subsequence
of the trace. -/
theorem repair_c1 (env : Env) (d : String) (b : Bool)
    (h : (repairDatabase env d false b false).result = .ret .ok) :
    (repairDatabase env d false b false).trace.filter isSwapEvent =
      if b then [.renameForBackupEv, .guardCommit, .installRecoveredEv]
      else [.deleteOriginalsEv, .guardCommit, .installRecoveredEv,
            .removeReservedEv] := by
  revert h
  simp only [repairDatabase]
  repeat' split
  all_goals intro h
  all_goals first
    | (solve | exfalso; revert h; simp)
    | (simp only [List.filter_append]
       rw [repairAfterAlloc_ok_filter isSwapEvent (fun ns => rfl) rfl rfl rfl rfl
           (fun c => rfl) env (nsToDatabase d) b (!false) _ h]
       simp_all [List.filter, isSwapEvent])

/-- Claim C1 witness: a concrete healthy run returns OK and its swap
events appear in the order delete, commit, install, remove-reserved. -/
theorem repair_c1_witness :
    (repairDatabase sampleEnv "foo" false false false).result = .ret .ok ∧
    (repairDatabase sampleEnv "foo" false false false).trace.filter isSwapEvent =
      [.deleteOriginalsEv, .guardCommit, .installRecoveredEv, .removeReservedEv] :=
  ⟨by decide, repair_c1 sampleEnv "foo" false (by decide)⟩

/-- Claim C2 counterexample: the enumeration loop does NOT reset the
defensive counter when a file is found.  With files only at index 5, the
loop of the source stops at index 10 — after 10 cumulative (but only 5
consecutive) misses: the last ten probes are not all misses, and the
counter-resetting loop written from the words of the spec continues through
index 15, so the two differ. -/
theorem repair_c2_counterexample :
    dataFileLoop (σ := Nat) 30 (fun s i => (s, i == 5)) 32 0 0 10 =
      .done 0 [(0, false), (1, false), (2, false), (3, false), (4, false),
               (5, true), (6, false), (7, false), (8, false), (9, false),
               (10, false)] ∧
    (([(0, false), (1, false), (2, false), (3, false), (4, false),
       (5, true), (6, false), (7, false), (8, false), (9, false),
       (10, false)] : List (Nat × Bool)).drop 1).all (fun pr => !pr.2) = false ∧
    dataFileLoopSpecReset (σ := Nat) 30 (fun s i => (s, i == 5)) 32 0 0 10 =
      .done 0 [(0, false), (1, false), (2, false), (3, false), (4, false),
               (5, true), (6, false), (7, false), (8, false), (9, false),
               (10, false), (11, false), (12, false), (13, false),
               (14, false), (15, false)] := by
  refine ⟨by decide, by decide, by decide⟩

/-- Claim C2 (amended): the defensive counter starts at 10, is decremented
on every missing file and is never reset on a handled file, so enumeration
stops once 10 cumulative misses have accumulated (exactly 10 misses appear
among the probes of a normal stop); and the loop asserts `i <= MaxFiles`
first, exceeding the bound being a hard failure. -/
theorem repair_c2 :
    (∀ (σ : Type) (mf : Nat) (op : σ → Nat → σ × Bool) (fuel : Nat)
       (s s2 : σ) (probes : List (Nat × Bool)),
       dataFileLoop mf op fuel s 0 10 = .done s2 probes →
       missCount probes = 10) ∧
    (∀ (σ : Type) (mf : Nat) (op : σ → Nat → σ × Bool) (fuel : Nat)
       (s : σ) (i extra : Nat), mf < i →
       dataFileLoop mf op (fuel + 1) s i extra = .verifyFail s) :=
  ⟨fun _ mf op fuel s s2 probes h =>
     dataFileLoop_done_missCount mf op fuel s 0 10 s2 probes (by omega) h,
   fun _ mf op fuel s i extra h =>
     dataFileLoop_verifyFail_of_exceeds mf op fuel s i extra h⟩

/-- Claim C2 witness: the amended theorem applied at the concrete loop run
of the counterexample (10 cumulative misses) and at a concrete index past
the bound. -/
theorem repair_c2_witness :
    missCount [(0, false), (1, false), (2, false), (3, false), (4, false),
               (5, true), (6, false), (7, false), (8, false), (9, false),
               (10, false)] = 10 ∧
    dataFileLoop (σ := Nat) 3 (fun s _ => (s, true)) 6 0 4 10 = .verifyFail 0 :=
  ⟨repair_c2.1 Nat 30 (fun s i => (s, i == 5)) 32 0 0 _ (by decide),
   repair_c2.2 Nat 3 (fun s _ => (s, true)) 5 0 4 10 (by decide)⟩

/-- Claim C3: when the size enumeration completes, the reported free space
is known (`> -1`) and strictly below the computed total, `repairDatabase`
returns an `OutOfDiskSpace` status whose message contains both byte counts,
and no reserved directory was allocated on that run (no allocation event in
the trace). -/
theorem repair_c3 (env : Env) (d : String) (p b : Bool)
    (total : Nat) (probes : List (Nat × Bool))
    (hbg : env.bgOpInProgress = false)
    (hsz : (dbSize env.maxFiles env.origFiles (nsToDatabase d) env.params.dbpath).loopOut
      = .done total probes)
    (hknown : env.freeSpace > -1)
    (hlt : env.freeSpace < (total : Int)) :
    (repairDatabase env d p b false).result =
      .ret (.outOfDiskSpace (outOfSpaceMsg (nsToDatabase d) (total : Int) env.freeSpace)) ∧
    strContains (outOfSpaceMsg (nsToDatabase d) (total : Int) env.freeSpace)
      (toString (total : Int)) ∧
    strContains (outOfSpaceMsg (nsToDatabase d) (total : Int) env.freeSpace)
      (toString env.freeSpace) ∧
    ∀ pre n s, Event.allocReserved pre n s ∉ (repairDatabase env d p b false).trace := by
  have hrun : repairDatabase env d p b false =
      ⟨.ret (.outOfDiskSpace (outOfSpaceMsg (nsToDatabase d) (total : Int) env.freeSpace)),
       [.syncJournal,
        .enumFiles (dbSize env.maxFiles env.origFiles (nsToDatabase d) env.params.dbpath).call],
       false, false⟩ := by
    simp [repairDatabase, hbg, hsz, hknown, hlt]
  refine ⟨by rw [hrun], (outOfSpaceMsg_contains _ _ _).1,
    (outOfSpaceMsg_contains _ _ _).2, fun pre n s => ?_⟩
  rw [hrun]
  simp

/-- Claim C3 witness: free space 100 against total size 1024 (the scenario
of the spec) yields the `OutOfDiskSpace` message carrying both counts and a
trace without any reserved-directory allocation. -/
theorem repair_c3_witness :
    (repairDatabase lowSpaceEnv "foo" false false false).result =
      .ret (.outOfDiskSpace (outOfSpaceMsg (nsToDatabase "foo") 1024 100)) ∧
    strContains (outOfSpaceMsg (nsToDatabase "foo") 1024 100) (toString (1024 : Int)) ∧
    strContains (outOfSpaceMsg (nsToDatabase "foo") 1024 100) (toString (100 : Int)) ∧
    (∀ pre n s, Event.allocReserved pre n s ∉
      (repairDatabase lowSpaceEnv "foo" false false false).trace) :=
  repair_c3 lowSpaceEnv "foo" false false 1024
    [(0, true), (1, false), (2, false), (3, false), (4, false), (5, false),
     (6, false), (7, false), (8, false), (9, false), (10, false)]
    rfl (by decide) (by decide) (by decide)

/-- Claim C4: the cleanup guard is installed only when
`preserveClonedFilesOnFailure` is false; its destructor does nothing after
`success()`, otherwise syncs and truncates the journal, flushes all files,
closes the database rooted at the reserved path and recursively removes it,
and any exception during that cleanup aborts the process through
`fassertFailed( 17402 )`. -/
theorem repair_c4 :
    (∀ (env : Env) (d : String) (p b : Bool),
       (repairDatabase env d p b false).guardInstalled = true → p = false) ∧
    (∀ (nm pth : String) (th : Bool),
       repairFileDeleterDtor (deleterSuccess (mkRepairFileDeleter nm pth)) th = .noop) ∧
    (∀ nm pth : String,
       repairFileDeleterDtor (mkRepairFileDeleter nm pth) false =
         .cleaned [.syncJournalC, .flushAllC, .closeDb nm pth, .removeAll pth]) ∧
    (∀ nm pth : String,
       repairFileDeleterDtor (mkRepairFileDeleter nm pth) true = .fassertAbort 17402) := by
  refine ⟨?_, fun nm pth th => rfl, fun nm pth => rfl, fun nm pth => rfl⟩
  intro env d p b h
  revert h
  simp only [repairDatabase]
  repeat' split
  all_goals intro h
  all_goals first
    | (solve | (exfalso; revert h; simp))
    | simpa using h

/-- Claim C4 witness: a concrete run without preservation does install the
guard, and the conditional conjunct applies to it. -/
theorem repair_c4_witness :
    (repairDatabase sampleEnv "foo" false false false).guardInstalled = true ∧
    false = false :=
  ⟨by decide, repair_c4.1 sampleEnv "foo" false false (by decide)⟩

/-- Claim C5: namespaces whose collection part is `system.namespaces` or
`system.indexes`, and namespaces the engine predicate calls not normal, are
never recorded in the copy map by the catalog scan and never created as
target collections in the temp database on any run. -/
theorem repair_c5 :
    (∀ (isNormal : String → Bool) (entries : List CatalogEntry)
       (m : List String) (ns : String),
       nsSkipped isNormal ns → scanCatalog isNormal entries [] = .ok m → ns ∉ m) ∧
    (∀ (env : Env) (d : String) (p b : Bool) (ns : String),
       nsSkipped env.isNormal ns →
       Event.createTempCollection ns ∉ (repairDatabase env d p b false).trace) := by
  refine ⟨fun isNormal entries m ns hskip h =>
    scanCatalog_not_mem isNormal entries [] m ns hskip h (by simp), ?_⟩
  intro env d p b ns hskip hmem
  simp only [repairDatabase] at hmem
  repeat' split at hmem
  all_goals try (solve | simp at hmem)
  all_goals
    (rcases List.mem_append.mp hmem with h1 | h1
     · simp at h1
     · obtain ⟨nsList, hscan, hns⟩ :=
         (repairAfterAlloc_mem_shape env _ b (!p) _ _ h1).2 ns rfl
       exact absurd hns (catalogScanRes_ok_not_mem env ns nsList hskip hscan))

/-- Claim C5 witness: on the sample catalog, `foo.system.indexes` is not in
the scanned map, and no target collection is created for it on the sample
run. -/
theorem repair_c5_witness :
    ("foo.system.indexes" ∉ (["foo.bar", "foo.baz"] : List String)) ∧
    Event.createTempCollection "foo.system.indexes" ∉
      (repairDatabase sampleEnv "foo" false false false).trace :=
  ⟨repair_c5.1 (fun _ => true) sampleCatalog ["foo.bar", "foo.baz"]
      "foo.system.indexes" (Or.inr (Or.inl (by decide))) rfl,
   repair_c5.2 sampleEnv "foo" false false "foo.system.indexes"
      (Or.inr (Or.inl (by decide)))⟩

/-- Claim C6 counterexample: the claim says the empty `<dbpath>/<db>`
directory is recreated only in directory-per-database mode; on a concrete
successful run with `directoryperdb = false` and `backupOriginalFiles =
false` the directory is recreated anyway (source lines 440–441 carry no
mode guard). -/
theorem repair_c6_counterexample :
    sampleEnv.params.directoryperdb = false ∧
    (repairDatabase sampleEnv "foo" false false false).result = .ret .ok ∧
    Event.createDbDir ∈ (repairDatabase sampleEnv "foo" false false false).trace :=
  ⟨rfl, by decide, by decide⟩

/-- Claim C6 (amended): in the dispose-originals phase with
`backupOriginalFiles = false`, the originals are deleted with the
directory-per-database recursive-remove short-circuit exactly when that
mode is enabled, and an empty `<dbpath>/<db>` directory is then recreated
unconditionally — in both modes, not only under directory-per-database. -/
theorem repair_c6 :
    (∀ (dirFlag : Bool) (m : Nat) (fs : DFile → Option Nat) (db pa : String),
       (deleteDataFiles dirFlag m fs db pa).shortCircuit = dirFlag) ∧
    (∀ (env : Env) (d : String) (p : Bool),
       (repairDatabase env d p false false).result = .ret .ok →
       Event.createDbDir ∈ (repairDatabase env d p false false).trace) := by
  refine ⟨fun dirFlag m fs db pa => by cases dirFlag <;> rfl, ?_⟩
  intro env d p h
  revert h
  simp only [repairDatabase]
  repeat' split
  all_goals intro h
  all_goals first
    | (solve | exfalso; revert h; simp)
    | (have hh := repairAfterAlloc_ok_filter isCreateDbDir (fun ns => rfl) rfl rfl rfl rfl
         (fun c => rfl) env (nsToDatabase d) false (!p) _ h
       refine List.mem_append.mpr (Or.inr ?_)
       apply List.mem_of_mem_filter (p := isCreateDbDir)
       rw [hh]
       cases p <;> simp [isCreateDbDir])

/-- Claim C6 witness: a concrete successful non-backup run recreates the
database directory. -/
theorem repair_c6_witness :
    (repairDatabase sampleEnv "foo" false false false).result = .ret .ok ∧
    Event.createDbDir ∈ (repairDatabase sampleEnv "foo" false false false).trace :=
  ⟨by decide, repair_c6.2 sampleEnv "foo" false (by decide)⟩

/-- Claim C7: when execution reaches the catalog scan and the options parse
of some entry fails, `repairDatabase` returns exactly the parser status —
which is never OK — and, when the guard was installed (no preservation),
the reserved directory is cleaned up by the guard on that path. -/
theorem repair_c7 (env : Env) (d : String) (p b : Bool)
    (entries : List CatalogEntry) (st : Status) (total : Nat)
    (probes : List (Nat × Bool)) (n : Nat)
    (hbg : env.bgOpInProgress = false)
    (hsz : (dbSize env.maxFiles env.origFiles (nsToDatabase d) env.params.dbpath).loopOut
      = .done total probes)
    (hfree : ¬(env.freeSpace > -1 ∧ env.freeSpace < (total : Int)))
    (hint : env.interrupted = false)
    (hprobe : uniqueReservedPathNum env.reservedExists env.probeFuel 0 = some n)
    (hdbe : env.dbExists = true)
    (hcat : env.catalog = some entries)
    (hscan : scanCatalog env.isNormal entries [] = .error st) :
    (repairDatabase env d p b false).result = .ret st ∧ st ≠ .ok ∧
    (p = false → Event.guardCleanup ∈ (repairDatabase env d p b false).trace) := by
  have hres : catalogScanRes env = .error st := by
    rw [catalogScanRes, hcat]; exact hscan
  have hrun : (repairDatabase env d p b false).result = .ret st ∧
      (repairDatabase env d p b false).trace =
        ([.syncJournal,
          .enumFiles (dbSize env.maxFiles env.origFiles (nsToDatabase d) env.params.dbpath).call]
         ++ [.allocReserved (if p || b then "backup" else "_tmp") n
              (env.params.repairpath ++ "/" ++
                reservedDirName (if p || b then "backup" else "_tmp") n)])
        ++ guardTail (!p) [] := by
    constructor <;>
    · simp only [repairDatabase, hbg, hsz, hint, hprobe]
      rw [if_neg (by simp), if_neg hfree]
      simp only [Bool.false_eq_true, if_false]
      rw [repairAfterAlloc_scan_error env _ b (!p) _ st hdbe hres]
  refine ⟨hrun.1, scanCatalog_error_ne_ok env.isNormal entries [] st hscan, fun hp => ?_⟩
  rw [hrun.2, hp]
  simp [guardTail]

/-- Claim C7 witness: a concrete run whose single catalog entry has a
failing options parse returns that very status and fires the guard. -/
theorem repair_c7_witness :
    (repairDatabase parseFailEnv "foo" false false false).result =
      .ret (.error "invalid options") ∧
    (Status.error "invalid options") ≠ .ok ∧
    (false = false → Event.guardCleanup ∈
      (repairDatabase parseFailEnv "foo" false false false).trace) :=
  repair_c7 parseFailEnv "foo" false false
    [⟨"foo.bad", some (.error "invalid options")⟩] (.error "invalid options")
    600
    [(0, true), (1, true), (2, false), (3, false), (4, false), (5, false),
     (6, false), (7, false), (8, false), (9, false), (10, false), (11, false)]
    1 rfl (by decide) (by decide) rfl (by decide) rfl rfl rfl

/-- Claim C8: whenever a run allocates a reserved directory, the directory
is `repair_root/<prefix>_repairDatabase_<n>` with `n` the least index whose
candidate did not exist at probe time, and the prefix is `backup` exactly
when `preserveClonedFilesOnFailure` or `backupOriginalFiles` is set, else
`_tmp`. -/
theorem repair_c8 (env : Env) (d : String) (p b : Bool)
    (pre : String) (n : Nat) (s : String)
    (hmem : Event.allocReserved pre n s ∈ (repairDatabase env d p b false).trace) :
    pre = (if p || b then "backup" else "_tmp") ∧
    s = env.params.repairpath ++ "/" ++ reservedDirName pre n ∧
    env.reservedExists n = false ∧ ∀ m, m < n → env.reservedExists m = true := by
  revert hmem
  simp only [repairDatabase]
  repeat' split
  all_goals intro hmem
  all_goals try (solve | simp at hmem)
  all_goals
    (rcases List.mem_append.mp hmem with h1 | h1
     · rcases List.mem_append.mp h1 with h2 | h2
       · simp at h2
       · simp only [List.mem_singleton] at h2
         rename_i n0 hurpn hcond
         obtain ⟨hp, hn, hs⟩ := Event.allocReserved.inj h2
         obtain ⟨e1, _, e3⟩ := urpn_least env.reservedExists env.probeFuel 0 n0 hurpn
         refine ⟨by simp [hcond, hp], by rw [hs, hp, hn], by rw [hn]; exact e1,
           fun m hm => e3 m (Nat.zero_le m) (by rw [← hn]; exact hm)⟩
     · exact absurd rfl ((repairAfterAlloc_mem_shape env _ b (!p) _ _ h1).1 pre n s))

/-- Claim C8 witness: on the sample run (reserved slot 0 occupied, both
flags clear) the allocated directory is `_tmp_repairDatabase_1` under the
repair root, index 1 being the least free slot. -/
theorem repair_c8_witness :
    ("_tmp" : String) = "_tmp" ∧
    ("/data/repair/_tmp_repairDatabase_1" : String) =
      "/data/repair" ++ "/" ++ reservedDirName "_tmp" 1 ∧
    sampleEnv.reservedExists 1 = false ∧
    (∀ m, m < 1 → sampleEnv.reservedExists m = true) :=
  repair_c8 sampleEnv "foo" false false "_tmp" 1
    "/data/repair/_tmp_repairDatabase_1" (by decide)

/-- Claim C9: `dbSize` invokes the file enumerator with
`afterAllocator = false` (and the size op), while the delete (when it
enumerates at all — directory-per-database short-circuits), backup-rename
and install operations all invoke it with `afterAllocator = true`. -/
theorem repair_c9 (m : Nat) (fs : DFile → Option Nat) (db pa rps : String) :
    (dbSize m fs db pa).call.afterAllocator = false ∧
    (dbSize m fs db pa).call.opName = "checking size" ∧
    ((deleteDataFiles false m fs db pa).enumed.map
        (fun r => r.call.afterAllocator)) = some true ∧
    (deleteDataFiles true m fs db pa).shortCircuit = true ∧
    (renameForBackup m fs db pa).call.afterAllocator = true ∧
    (replaceWithRecovered m fs db pa rps).call.afterAllocator = true :=
  ⟨rfl, rfl, rfl, rfl, rfl, rfl⟩

/-- Claim C10: the process-wide `inDBRepair` flag is false after every
`repairDatabase` call that started with it clear — every exit path runs the
destructor of the scope marker — so a subsequent call never trips the
constructor invariant of `doingRepair`. -/
theorem repair_c10 (env env2 : Env) (d d2 : String) (p b p2 b2 : Bool) :
    (repairDatabase env d p b false).inDBRepairFinal = false ∧
    (repairDatabase env2 d2 p2 b2
        (repairDatabase env d p b false).inDBRepairFinal).result ≠
      .exn "verify failed: ! inDBRepair" := by
  have h1 : ∀ (e : Env) (dd : String) (pp bb : Bool),
      (repairDatabase e dd pp bb false).inDBRepairFinal = false := by
    intro e dd pp bb
    simp only [repairDatabase]
    repeat' split
    all_goals first | rfl | simp_all
  refine ⟨h1 env d p b, ?_⟩
  rw [h1 env d p b]
  simp only [repairDatabase]
  repeat' split
  all_goals first
    | (solve | simp_all)
    | exact repairAfterAlloc_not_verify_exn env2 _ b2 (!p2) _

end RepairDb
